import Mathlib

/-!
Shallow embedding of the flaky-test detection engine:
CTRF parsing (ctrf-parser.ts), identity and grouping, the statistics
engine, the flakiness classifier and confidence scorer (FlakyDetector),
and the CSV status column of the report generator.

Numbers: counts are Nat; JS numeric values (durations, rates,
thresholds, confidence) are modelled as exact rationals, except the
coefficient of variation, which uses Real.sqrt and therefore lives in ℝ.
-/

/-- Status of one test observation, per the CTRF union type. -/
inductive TestStatus where
  | passed
  | failed
  | skipped
  | pending
  | other
deriving DecidableEq

/-- One test observation (CTRFTest): the fields used by the engine. -/
structure CTRFTest where
  name : String
  status : TestStatus
  duration : ℚ
  suite : Option String := none
  filePath : Option String := none
  message : Option String := none
  tags : Option (List String) := none
deriving DecidableEq

/-- Summary counts of one CTRF report. -/
structure CTRFSummary where
  tests : Nat
  passed : Nat
  failed : Nat
  skipped : Nat
  pending : Nat
  other : Nat
  start : Nat
  stop : Nat
deriving DecidableEq

/-- Contents of the results container of a raw parsed report; each
section may be absent (undefined in JS). -/
structure RawResults where
  toolName : Option String := none
  summary : Option CTRFSummary := none
  tests : Option (List CTRFTest) := none
deriving DecidableEq

/-- A raw parsed JSON document viewed as a candidate CTRF report; the
results container may be absent. -/
structure RawReport where
  results : Option RawResults := none
deriving DecidableEq

/-- Input to parseReport: either a string JSON.parse rejects (carrying
the JS error text) or the parsed document. -/
inductive JsonInput where
  | invalid (errText : String)
  | valid (report : RawReport)
deriving DecidableEq

/-- Text of the inner validation error after JS string conversion of the
Error object rethrown by the catch block. -/
def invalidFormatMsg : String := "Error: Invalid CTRF format: missing results or tests"

/-- Underlying failure text wrapped into the parse error message. -/
def underlyingFailure : JsonInput → String
  | JsonInput.invalid m => m
  | JsonInput.valid _ => invalidFormatMsg

/-- CTRFParser.parseReport: JSON.parse, then reject a document whose
results container or test list is absent; both failure paths rethrow
with the prefixed message. -/
def parseReport : JsonInput → Except String RawReport
  | JsonInput.invalid m => Except.error ("Failed to parse CTRF report: " ++ m)
  | JsonInput.valid r =>
    match r.results with
    | none => Except.error ("Failed to parse CTRF report: " ++ invalidFormatMsg)
    | some res =>
      match res.tests with
      | none => Except.error ("Failed to parse CTRF report: " ++ invalidFormatMsg)
      | some _ => Except.ok r

/-- JS-truthy defaulting: an absent or empty string falls back to the
default (the || operator of getTestId). -/
def orDefault (s : Option String) (d : String) : String :=
  match s with
  | none => d
  | some v => if v = "" then d else v

/-- CTRFParser.getTestId: "filePath::suite::testName" with defaults. -/
def getTestId (test : CTRFTest) : String :=
  orDefault test.filePath "unknown" ++ "::" ++ orDefault test.suite "default" ++ "::" ++ test.name

/-- Resolved (file, suite, name) triple after defaulting, the logical
identity the spec speaks about. -/
def resolvedTriple (test : CTRFTest) : String × String × String :=
  (orDefault test.filePath "unknown", orDefault test.suite "default", test.name)

/-- One insertion step of groupTestsByIdentifier: push the test onto the
bucket of its key, creating the bucket at the end if absent (Map
insertion-order semantics). -/
def addToGroup : List (String × List CTRFTest) → String → CTRFTest → List (String × List CTRFTest)
  | [], k, t => [(k, [t])]
  | (k', b) :: rest, k, t =>
    if k' = k then (k', b ++ [t]) :: rest
    else (k', b) :: addToGroup rest k t

/-- CTRFParser.groupTestsByIdentifier: one pass over the tests, pushing
each onto the bucket of its computed id. -/
def groupTestsByIdentifier (tests : List CTRFTest) : List (String × List CTRFTest) :=
  tests.foldl (fun m t => addToGroup m (getTestId t) t) []

/-- Durations strictly greater than 0, as filtered at the start of
calculateStatistics and calculateDurationVariance. -/
def durationsOf (tests : List CTRFTest) : List ℚ :=
  (tests.map (fun t => t.duration)).filter (fun d => 0 < d)

/-- Count of observations with the given status (filter + length). -/
def countStatus (s : TestStatus) (tests : List CTRFTest) : Nat :=
  (tests.filter (fun t => t.status = s)).length

/-- Population mean of a list of rationals (0 on the empty list, as ℚ
division by zero is 0; the sources guard emptiness before dividing). -/
def popMean (l : List ℚ) : ℚ := l.sum / l.length

/-- Population variance: mean of squared deviations from the mean. -/
def popVar (l : List ℚ) : ℚ :=
  (l.map (fun d => (d - popMean l) ^ 2)).sum / l.length

/-- Result record of CTRFParser.calculateStatistics. -/
structure Statistics where
  totalRuns : Nat
  passed : Nat
  failed : Nat
  skipped : Nat
  averageDuration : ℚ
  minDuration : ℚ
  maxDuration : ℚ
  failureMessages : List String

/-- Truthiness test on the optional failure message (t.message && ...). -/
def hasMessage (t : CTRFTest) : Bool :=
  match t.message with
  | none => false
  | some m => !(m == "")

/-- CTRFParser.calculateStatistics over one bucket of runs. -/
def calculateStatistics (tests : List CTRFTest) : Statistics :=
  let durations := durationsOf tests
  { totalRuns := tests.length
    passed := countStatus TestStatus.passed tests
    failed := countStatus TestStatus.failed tests
    skipped := countStatus TestStatus.skipped tests
    averageDuration := if 0 < durations.length then popMean durations else 0
    minDuration :=
      match durations with
      | [] => 0
      | d :: ds => ds.foldl min d
    maxDuration :=
      match durations with
      | [] => 0
      | d :: ds => ds.foldl max d
    failureMessages :=
      ((tests.filter (fun t => t.status = TestStatus.failed && hasMessage t)).map
        (fun t => t.message)).reduceOption }

/-- Failure rate of a bucket: failed / totalRuns, 0 when totalRuns = 0
(the guarded ternary of calculateTestStatistics). -/
def failureRateOf (tests : List CTRFTest) : ℚ :=
  let stats := calculateStatistics tests
  if 0 < stats.totalRuns then (stats.failed : ℚ) / (stats.totalRuns : ℚ) else 0

/-- Success rate of a bucket: passed / totalRuns, 0 when totalRuns = 0. -/
def successRateOf (tests : List CTRFTest) : ℚ :=
  let stats := calculateStatistics tests
  if 0 < stats.totalRuns then (stats.passed : ℚ) / (stats.totalRuns : ℚ) else 0

/-- FlakyDetector.calculateDurationVariance: coefficient of variation of
the positive durations; 0 with fewer than two of them, and 0 instead of
dividing by a non-positive mean. -/
noncomputable def calculateDurationVariance (tests : List CTRFTest) : ℝ :=
  let durations := durationsOf tests
  if durations.length < 2 then 0
  else
    let avg := popMean durations
    let variance := popVar durations
    if 0 < avg then Real.sqrt (variance : ℝ) / (avg : ℝ) else 0

/-- Configuration of FlakyDetector. -/
structure FlakyDetectionConfig where
  minRuns : Nat
  flakyThresholdMin : ℚ
  flakyThresholdMax : ℚ
  durationVarianceThreshold : ℚ

/-- Defaults set in the FlakyDetector constructor. -/
def defaultConfig : FlakyDetectionConfig :=
  { minRuns := 10
    flakyThresholdMin := 1 / 10
    flakyThresholdMax := 9 / 10
    durationVarianceThreshold := 1 / 2 }

open Classical in
/-- FlakyDetector.isTestFlaky: below minRuns always false; otherwise OR
of the strict failure-rate band and the timing-variance signal. -/
noncomputable def isTestFlaky (cfg : FlakyDetectionConfig) (totalRuns : Nat)
    (failureRate : ℚ) (durationVariance : ℝ) : Bool :=
  if totalRuns < cfg.minRuns then false
  else
    let failureRateFlaky :=
      decide (cfg.flakyThresholdMin < failureRate) && decide (failureRate < cfg.flakyThresholdMax)
    let timingFlaky := decide ((cfg.durationVarianceThreshold : ℝ) < durationVariance)
    failureRateFlaky || timingFlaky

/-- Sample-size component of the confidence score. -/
def runConfidence (totalRuns : Nat) : ℚ :=
  min ((totalRuns : ℚ) / 20) 1 * (2 / 5)

open Classical in
/-- FlakyDetector.calculateConfidence: additive components capped at 1. -/
noncomputable def calculateConfidence (cfg : FlakyDetectionConfig) (totalRuns : Nat)
    (failureRate : ℚ) (durationVariance : ℝ) : ℚ :=
  let c1 := 0 + runConfidence totalRuns
  let c2 := if 1 / 5 < failureRate ∧ failureRate < 4 / 5 then c1 + 3 / 10 else c1
  let c3 := if (cfg.durationVarianceThreshold : ℝ) < durationVariance then c2 + 3 / 10 else c2
  min c3 1

/-- De-duplication keeping the first occurrence (JS new Set iteration
order), used for the failure messages. -/
def dedupFirst : List String → List String
  | [] => []
  | x :: xs => x :: dedupFirst (xs.filter (fun y => y ≠ x))
termination_by l => l.length
decreasing_by
  simp only [List.length_cons]
  exact Nat.lt_succ_of_le (List.length_filter_le _ _)

/-- Aggregated per-identity record (TestStatistics of FlakyDetector). -/
structure TestStatistics where
  testId : String
  name : String
  suite : String
  file : String
  totalRuns : Nat
  passed : Nat
  failed : Nat
  skipped : Nat
  failureRate : ℚ
  successRate : ℚ
  isFlaky : Bool
  averageDuration : ℚ
  durationVariance : ℝ
  failureMessages : List String
  tags : List String
  confidence : ℚ

/-- FlakyDetector.calculateTestStatistics. Accessing tests[0] on an
empty bucket would be a JS undefined access, modelled as none. -/
noncomputable def calculateTestStatistics (cfg : FlakyDetectionConfig) (testId : String)
    (tests : List CTRFTest) : Option TestStatistics :=
  match tests with
  | [] => none
  | firstTest :: _ =>
    let stats := calculateStatistics tests
    let failureRate := failureRateOf tests
    let successRate := successRateOf tests
    let durationVariance := calculateDurationVariance tests
    some
      { testId := testId
        name := firstTest.name
        suite := orDefault firstTest.suite "default"
        file := orDefault firstTest.filePath "unknown"
        totalRuns := stats.totalRuns
        passed := stats.passed
        failed := stats.failed
        skipped := stats.skipped
        failureRate := failureRate
        successRate := successRate
        isFlaky := isTestFlaky cfg stats.totalRuns failureRate durationVariance
        averageDuration := stats.averageDuration
        durationVariance := durationVariance
        failureMessages := dedupFirst stats.failureMessages
        tags := firstTest.tags.getD []
        confidence := calculateConfidence cfg stats.totalRuns failureRate durationVariance }

/-- Status column of ReportGenerator.generateCsvReport. -/
def csvStatus (isFlaky : Bool) (failureRate : ℚ) : String :=
  if isFlaky then "Flaky"
  else if failureRate = 0 then "Stable"
  else if 9 / 10 ≤ failureRate then "Failing"
  else "Unstable"

/-! Helper lemmas -/

/-- Splitting at a double-colon separator is unambiguous when the left
parts are colon-free. -/
theorem sep_split_inj {a b r1 r2 : List Char} (ha : ':' ∉ a) (hb : ':' ∉ b)
    (h : a ++ ':' :: ':' :: r1 = b ++ ':' :: ':' :: r2) : a = b ∧ r1 = r2 := by
  induction a generalizing b with
  | nil =>
    cases b with
    | nil => simpa using h
    | cons c bs =>
      exfalso
      apply hb
      simp only [List.nil_append, List.cons_append, List.cons.injEq] at h
      rw [h.1]
      exact List.mem_cons_self _ _
  | cons c as ih =>
    cases b with
    | nil =>
      exfalso
      apply ha
      simp only [List.nil_append, List.cons_append, List.cons.injEq] at h
      rw [← h.1]
      exact List.mem_cons_self _ _
    | cons c' bs =>
      simp only [List.cons_append, List.cons.injEq] at h
      have has : ':' ∉ as := fun hm => ha (List.mem_cons_of_mem _ hm)
      have hbs : ':' ∉ bs := fun hm => hb (List.mem_cons_of_mem _ hm)
      obtain ⟨h1, h2⟩ := ih has hbs h.2
      exact ⟨by rw [h.1, h1], h2⟩

/-- Character decomposition of a computed test id. -/
theorem getTestId_data (t : CTRFTest) :
    (getTestId t).data =
      (orDefault t.filePath "unknown").data ++ ':' :: ':' ::
        ((orDefault t.suite "default").data ++ ':' :: ':' :: t.name.data) := by
  have hsep : ("::" : String).data = [':', ':'] := rfl
  simp [getTestId, String.data_append, hsep]

/-! Claim C1 -/

/-- C1 (counterexample): a bucket of three passing runs — below the
default minRuns of 10 — is reported with CSV status "Stable": a
below-minRuns bucket is not carried as an Insufficient-data
classification and can be reported Stable. -/
theorem belowMinRuns_reported_stable_cex :
    3 < defaultConfig.minRuns ∧
    (calculateTestStatistics defaultConfig "unknown::default::t"
        [{ name := "t", status := TestStatus.passed, duration := 0 },
         { name := "t", status := TestStatus.passed, duration := 0 },
         { name := "t", status := TestStatus.passed, duration := 0 }]).map
      (fun r => (r.totalRuns, r.isFlaky, csvStatus r.isFlaky r.failureRate)) =
      some (3, false, "Stable") := by
  refine ⟨by decide, ?_⟩
  simp [calculateTestStatistics, calculateStatistics, countStatus, failureRateOf,
    isTestFlaky, csvStatus, defaultConfig, durationsOf]

/-- C1 (amended): for every bucket with totalRuns < minRuns the
classifier returns isFlaky = false regardless of failureRate and
durationVariance, so the record is never reported Flaky; but there is no
Insufficient-data status — the CSV status is still drawn from
failureRate alone as Stable, Failing, or Unstable. -/
theorem belowMinRuns_never_flaky (cfg : FlakyDetectionConfig) (n : Nat) (fr : ℚ) (dv : ℝ)
    (h : n < cfg.minRuns) :
    isTestFlaky cfg n fr dv = false ∧
    csvStatus (isTestFlaky cfg n fr dv) fr ≠ "Flaky" ∧
    (csvStatus (isTestFlaky cfg n fr dv) fr = "Stable" ∨
      csvStatus (isTestFlaky cfg n fr dv) fr = "Failing" ∨
      csvStatus (isTestFlaky cfg n fr dv) fr = "Unstable") := by
  have hf : isTestFlaky cfg n fr dv = false := by
    unfold isTestFlaky
    rw [if_pos h]
  have hcs : csvStatus false fr =
      if fr = 0 then "Stable" else if 9 / 10 ≤ fr then "Failing" else "Unstable" := rfl
  refine ⟨hf, ?_, ?_⟩
  · rw [hf, hcs]
    split_ifs <;> decide
  · rw [hf, hcs]
    split_ifs
    · exact Or.inl rfl
    · exact Or.inr (Or.inl rfl)
    · exact Or.inr (Or.inr rfl)

/-- Witness for the amended C1 theorem at a concrete below-minRuns
input. -/
theorem belowMinRuns_never_flaky_witness :
    3 < defaultConfig.minRuns ∧
    (isTestFlaky defaultConfig 3 1 0 = false ∧
      csvStatus (isTestFlaky defaultConfig 3 1 0) 1 ≠ "Flaky" ∧
      (csvStatus (isTestFlaky defaultConfig 3 1 0) 1 = "Stable" ∨
        csvStatus (isTestFlaky defaultConfig 3 1 0) 1 = "Failing" ∨
        csvStatus (isTestFlaky defaultConfig 3 1 0) 1 = "Unstable")) :=
  ⟨by decide, belowMinRuns_never_flaky defaultConfig 3 1 0 (by decide)⟩

/-! Claim C2 -/

/-- C2 (counterexample): a JSON document whose summary section is absent
but whose test list is present is returned as ok rather than rejected —
parseReport never checks the summary. -/
theorem parseReport_missing_summary_ok_cex :
    (RawReport.mk (some { toolName := none, summary := none, tests := some [] })).results.map
      (fun res => res.summary) = some none ∧
    parseReport (JsonInput.valid
        (RawReport.mk (some { toolName := none, summary := none, tests := some [] }))) =
      Except.ok (RawReport.mk (some { toolName := none, summary := none, tests := some [] })) :=
  ⟨rfl, rfl⟩

/-- C2 (amended): parseReport fails exactly when the input is unparsable
as JSON or the results container or the test list is absent — the
summary is not checked — and every error message embeds the underlying
failure text; when the results container and the test list are both
present the parsed report is returned unchanged. -/
theorem parseReport_spec_amended (j : JsonInput) :
    (∀ r res ts, j = JsonInput.valid r → r.results = some res → res.tests = some ts →
      parseReport j = Except.ok r) ∧
    ((¬ ∃ r res ts, j = JsonInput.valid r ∧ r.results = some res ∧ res.tests = some ts) →
      parseReport j = Except.error ("Failed to parse CTRF report: " ++ underlyingFailure j)) := by
  cases j with
  | invalid m =>
    refine ⟨?_, fun _ => rfl⟩
    intro r res ts h
    cases h
  | valid r =>
    cases hres : r.results with
    | none =>
      refine ⟨?_, fun _ => ?_⟩
      · intro r' res ts h hres'
        cases h
        rw [hres] at hres'
        cases hres'
      · simp [parseReport, hres, underlyingFailure]
    | some res =>
      cases hts : res.tests with
      | none =>
        refine ⟨?_, fun _ => ?_⟩
        · intro r' res' ts h hres' hts'
          cases h
          rw [hres] at hres'
          cases hres'
          rw [hts] at hts'
          cases hts'
        · simp [parseReport, hres, hts, underlyingFailure]
      | some ts =>
        refine ⟨?_, fun hne => ?_⟩
        · intro r' res' ts' h _ _
          cases h
          simp [parseReport, hres, hts]
        · exact absurd ⟨r, res, ts, rfl, hres, hts⟩ hne

/-- Witness for the amended C2 theorem: an unparsable input is rejected
with the underlying JSON error embedded in the message. -/
theorem parseReport_spec_amended_witness :
    parseReport (JsonInput.invalid "SyntaxError: Unexpected token") =
      Except.error ("Failed to parse CTRF report: " ++
        underlyingFailure (JsonInput.invalid "SyntaxError: Unexpected token")) :=
  (parseReport_spec_amended (JsonInput.invalid "SyntaxError: Unexpected token")).2
    (by rintro ⟨r, res, ts, h, -, -⟩; cases h)

/-! Claim C3 -/

/-- First observation of the C3 collision: the separator occurs inside
its file path. -/
def collObsA : CTRFTest :=
  { name := "n", status := TestStatus.passed, duration := 0,
    suite := some "c", filePath := some "a::b" }

/-- Second observation of the C3 collision: a genuinely different
(file, suite, name) triple. -/
def collObsB : CTRFTest :=
  { name := "n", status := TestStatus.passed, duration := 0,
    suite := some "b::c", filePath := some "a" }

/-- C3 (counterexample): two observations with distinct resolved
(file, suite, name) triples share one computed identity, because a field
containing the :: separator shifts the split point. -/
theorem getTestId_collision_cex :
    resolvedTriple collObsA ≠ resolvedTriple collObsB ∧
    getTestId collObsA = getTestId collObsB :=
  ⟨by decide, rfl⟩

/-- C3 (amended): identical resolved triples always map to the same
identity, and distinct resolved triples map to distinct identities
provided the resolved file and suite components contain no colon; when a
component contains the separator, distinct triples can collide. -/
theorem getTestId_eq_iff (t1 t2 : CTRFTest)
    (hf1 : ':' ∉ (orDefault t1.filePath "unknown").data)
    (hs1 : ':' ∉ (orDefault t1.suite "default").data)
    (hf2 : ':' ∉ (orDefault t2.filePath "unknown").data)
    (hs2 : ':' ∉ (orDefault t2.suite "default").data) :
    getTestId t1 = getTestId t2 ↔ resolvedTriple t1 = resolvedTriple t2 := by
  constructor
  · intro h
    have hd := congrArg String.data h
    rw [getTestId_data, getTestId_data] at hd
    obtain ⟨h1, h2⟩ := sep_split_inj hf1 hf2 hd
    obtain ⟨h3, h4⟩ := sep_split_inj hs1 hs2 h2
    simp only [resolvedTriple, Prod.mk.injEq]
    exact ⟨String.ext h1, String.ext h3, String.ext h4⟩
  · intro h
    simp only [resolvedTriple, Prod.mk.injEq] at h
    unfold getTestId
    rw [h.1, h.2.1, h.2.2]

/-- Concrete observation used by the C3 witness. -/
def wObsA : CTRFTest :=
  { name := "n1", status := TestStatus.passed, duration := 0,
    suite := some "s", filePath := some "f" }

/-- Second concrete observation used by the C3 witness. -/
def wObsB : CTRFTest :=
  { name := "n2", status := TestStatus.passed, duration := 0,
    suite := some "s", filePath := some "f" }

/-- Witness for the amended C3 theorem at two colon-free observations. -/
theorem getTestId_eq_iff_witness :
    ':' ∉ (orDefault wObsA.filePath "unknown").data ∧
    ':' ∉ (orDefault wObsB.suite "default").data ∧
    (getTestId wObsA = getTestId wObsB ↔ resolvedTriple wObsA = resolvedTriple wObsB) :=
  ⟨by decide, by decide,
    getTestId_eq_iff wObsA wObsB (by decide) (by decide) (by decide) (by decide)⟩

/-! Claim C4 -/

/-- C4: with at least minRuns runs, duration variance above the
threshold forces isFlaky = true even when the failure rate is at or
above flakyThresholdMax, and the CSV status is "Flaky", not "Failing":
the timing signal is evaluated independently of the failure rate. -/
theorem timingSignal_overrides_failureRate (cfg : FlakyDetectionConfig) (n : Nat)
    (fr : ℚ) (dv : ℝ) (hn : cfg.minRuns ≤ n)
    (hdv : (cfg.durationVarianceThreshold : ℝ) < dv)
    (hfr : cfg.flakyThresholdMax ≤ fr) :
    isTestFlaky cfg n fr dv = true ∧
    csvStatus (isTestFlaky cfg n fr dv) fr = "Flaky" ∧
    csvStatus (isTestFlaky cfg n fr dv) fr ≠ "Failing" := by
  have ht : isTestFlaky cfg n fr dv = true := by
    unfold isTestFlaky
    rw [if_neg (Nat.not_lt.mpr hn)]
    simp only [Bool.or_eq_true, Bool.and_eq_true, decide_eq_true_eq]
    exact Or.inr hdv
  have hcs : csvStatus true fr = "Flaky" := rfl
  refine ⟨ht, ?_, ?_⟩
  · rw [ht, hcs]
  · rw [ht, hcs]
    decide

/-- Witness for the C4 theorem: ten runs, failure rate 1, duration
variance 1 under the default configuration. -/
theorem timingSignal_overrides_failureRate_witness :
    defaultConfig.minRuns ≤ 10 ∧
    ((defaultConfig.durationVarianceThreshold : ℝ) < 1) ∧
    (defaultConfig.flakyThresholdMax ≤ (1 : ℚ)) ∧
    (isTestFlaky defaultConfig 10 1 1 = true ∧
      csvStatus (isTestFlaky defaultConfig 10 1 1) 1 = "Flaky" ∧
      csvStatus (isTestFlaky defaultConfig 10 1 1) 1 ≠ "Failing") :=
  ⟨by decide, by norm_num [defaultConfig], by norm_num [defaultConfig],
    timingSignal_overrides_failureRate defaultConfig 10 1 1 (by decide)
      (by norm_num [defaultConfig]) (by norm_num [defaultConfig])⟩

/-! Claim C5 -/

/-- Positivity of every qualifying duration: the filter keeps only
strictly positive values. -/
theorem durationsOf_pos (tests : List CTRFTest) : ∀ x ∈ durationsOf tests, 0 < x := by
  intro x hx
  simp only [durationsOf, List.mem_filter, decide_eq_true_eq] at hx
  exact hx.2

/-- C5: calculateDurationVariance is 0 whenever fewer than 2
observations have positive duration; otherwise the mean of the
qualifying durations is positive and the result is the coefficient of
variation √(population variance)/μ; in all cases the result is
nonnegative. -/
theorem durationVariance_spec (tests : List CTRFTest) :
    ((durationsOf tests).length < 2 → calculateDurationVariance tests = 0) ∧
    (2 ≤ (durationsOf tests).length →
      0 < popMean (durationsOf tests) ∧
      calculateDurationVariance tests =
        Real.sqrt ((popVar (durationsOf tests) : ℝ)) / ((popMean (durationsOf tests) : ℝ))) ∧
    0 ≤ calculateDurationVariance tests := by
  refine ⟨?_, ?_, ?_⟩
  · intro h
    simp only [calculateDurationVariance]
    rw [if_pos h]
  · intro h
    have hne : durationsOf tests ≠ [] := by
      intro he
      rw [he] at h
      simp at h
    have hm : 0 < popMean (durationsOf tests) := by
      unfold popMean
      refine div_pos (List.sum_pos _ (durationsOf_pos tests) hne) ?_
      exact_mod_cast List.length_pos.mpr hne
    refine ⟨hm, ?_⟩
    simp only [calculateDurationVariance]
    rw [if_neg (by omega : ¬ (durationsOf tests).length < 2), if_pos hm]
  · simp only [calculateDurationVariance]
    split_ifs with h1 h2
    · exact le_refl 0
    · refine div_nonneg (Real.sqrt_nonneg _) ?_
      exact_mod_cast h2.le
    · exact le_refl 0

/-- Concrete two-run bucket with positive durations for the C5
witness. -/
def wBucketC5 : List CTRFTest :=
  [{ name := "a", status := TestStatus.passed, duration := 1 },
   { name := "a", status := TestStatus.passed, duration := 2 }]

/-- Witness for the C5 theorem on a bucket with two positive
durations. -/
theorem durationVariance_spec_witness :
    2 ≤ (durationsOf wBucketC5).length ∧
    (0 < popMean (durationsOf wBucketC5) ∧
      calculateDurationVariance wBucketC5 =
        Real.sqrt ((popVar (durationsOf wBucketC5) : ℝ)) /
          ((popMean (durationsOf wBucketC5) : ℝ))) ∧
    0 ≤ calculateDurationVariance wBucketC5 :=
  ⟨by decide, (durationVariance_spec wBucketC5).2.1 (by decide),
    (durationVariance_spec wBucketC5).2.2⟩

/-! Claim C7 -/

/-- C7: calculateConfidence always lies in [0,1]; holding failureRate
and durationVariance fixed it is monotonically non-decreasing in
totalRuns; its sample-size component min(totalRuns/20,1)*0.4 is at most
0.4 and saturates from 20 runs on. -/
theorem confidence_spec (cfg : FlakyDetectionConfig) (n m : Nat) (fr : ℚ) (dv : ℝ)
    (hnm : n ≤ m) :
    0 ≤ calculateConfidence cfg n fr dv ∧
    calculateConfidence cfg n fr dv ≤ 1 ∧
    calculateConfidence cfg n fr dv ≤ calculateConfidence cfg m fr dv ∧
    runConfidence n ≤ 2 / 5 ∧
    (20 ≤ n → runConfidence n = 2 / 5) := by
  have hrc : ∀ k : Nat, 0 ≤ runConfidence k := by
    intro k
    unfold runConfidence
    refine mul_nonneg (le_min ?_ ?_) (by norm_num)
    · positivity
    · norm_num
  have hmono : runConfidence n ≤ runConfidence m := by
    unfold runConfidence
    refine mul_le_mul_of_nonneg_right (min_le_min ?_ le_rfl) (by norm_num)
    refine div_le_div_of_nonneg_right ?_ (by norm_num)
    exact_mod_cast hnm
  refine ⟨?_, ?_, ?_, ?_, ?_⟩
  · simp only [calculateConfidence]
    split_ifs <;>
      refine le_min ?_ (by norm_num) <;> linarith [hrc n]
  · simp only [calculateConfidence]
    split_ifs <;> exact min_le_right _ _
  · simp only [calculateConfidence]
    split_ifs <;> refine min_le_min ?_ le_rfl <;> linarith
  · unfold runConfidence
    calc min ((n : ℚ) / 20) 1 * (2 / 5) ≤ 1 * (2 / 5) :=
          mul_le_mul_of_nonneg_right (min_le_right _ _) (by norm_num)
      _ = 2 / 5 := by norm_num
  · intro h20
    unfold runConfidence
    rw [min_eq_right ((one_le_div (by norm_num)).mpr (by exact_mod_cast h20 : (20 : ℚ) ≤ n))]
    norm_num

/-- Witness for the C7 theorem at 20 and 30 runs. -/
theorem confidence_spec_witness :
    (20 : Nat) ≤ 30 ∧
    (0 ≤ calculateConfidence defaultConfig 20 (1 / 2) 0 ∧
      calculateConfidence defaultConfig 20 (1 / 2) 0 ≤ 1 ∧
      calculateConfidence defaultConfig 20 (1 / 2) 0 ≤
        calculateConfidence defaultConfig 30 (1 / 2) 0 ∧
      runConfidence 20 ≤ 2 / 5 ∧
      (20 ≤ 20 → runConfidence 20 = 2 / 5)) :=
  ⟨by decide, confidence_spec defaultConfig 20 30 (1 / 2) 0 (by decide)⟩

/-! Claim C9 -/

/-- Unfolding of countStatus over a cons cell. -/
theorem countStatus_cons (s : TestStatus) (t : CTRFTest) (ts : List CTRFTest) :
    countStatus s (t :: ts) = (if t.status = s then 1 else 0) + countStatus s ts := by
  by_cases h : t.status = s <;>
    simp [countStatus, List.filter_cons, h, Nat.add_comm]

/-- Every observation has exactly one of the five statuses, so the five
per-status counts sum to the bucket size. -/
theorem totalRuns_eq_sum_counts (tests : List CTRFTest) :
    tests.length =
      countStatus TestStatus.passed tests + countStatus TestStatus.failed tests +
      countStatus TestStatus.skipped tests + countStatus TestStatus.pending tests +
      countStatus TestStatus.other tests := by
  induction tests with
  | nil => rfl
  | cons t ts ih =>
    rw [List.length_cons, countStatus_cons, countStatus_cons, countStatus_cons,
      countStatus_cons, countStatus_cons]
    cases t.status <;> simp <;> omega

/-- C9: for every non-empty bucket, failureRate + successRate ≤ 1, and
totalRuns is the sum of the counts of passed, failed, skipped, pending
and other observations. -/
theorem rates_and_counts_invariant (tests : List CTRFTest) (h : tests ≠ []) :
    failureRateOf tests + successRateOf tests ≤ 1 ∧
    (calculateStatistics tests).totalRuns =
      countStatus TestStatus.passed tests + countStatus TestStatus.failed tests +
      countStatus TestStatus.skipped tests + countStatus TestStatus.pending tests +
      countStatus TestStatus.other tests := by
  have hn : 0 < tests.length := List.length_pos.mpr h
  constructor
  · have hcount : countStatus TestStatus.failed tests + countStatus TestStatus.passed tests ≤
        tests.length := by
      have := totalRuns_eq_sum_counts tests
      omega
    simp only [failureRateOf, successRateOf, calculateStatistics]
    rw [if_pos hn, if_pos hn, div_add_div_same, div_le_one (by exact_mod_cast hn)]
    exact_mod_cast hcount
  · simpa only [calculateStatistics] using totalRuns_eq_sum_counts tests

/-- Witness for the C9 theorem on a concrete two-run bucket. -/
theorem rates_and_counts_invariant_witness :
    wBucketC5 ≠ [] ∧
    (failureRateOf wBucketC5 + successRateOf wBucketC5 ≤ 1 ∧
      (calculateStatistics wBucketC5).totalRuns =
        countStatus TestStatus.passed wBucketC5 + countStatus TestStatus.failed wBucketC5 +
        countStatus TestStatus.skipped wBucketC5 + countStatus TestStatus.pending wBucketC5 +
        countStatus TestStatus.other wBucketC5) :=
  ⟨by decide, rates_and_counts_invariant wBucketC5 (by decide)⟩

/-! Claim C6 -/

/-- Doubling numerator and denominator together leaves a ratio
unchanged (also at denominator 0, where both sides are 0). -/
theorem add_self_div_add_self (a b : ℚ) : (a + a) / (b + b) = a / b := by
  rcases eq_or_ne b 0 with hb | hb
  · simp [hb]
  · have h2 : b + b ≠ 0 := fun h => hb (by linarith)
    field_simp
    ring

/-- Qualifying durations distribute over concatenation. -/
theorem durationsOf_append (a b : List CTRFTest) :
    durationsOf (a ++ b) = durationsOf a ++ durationsOf b := by
  simp [durationsOf, List.filter_append]

/-- Per-status counts distribute over concatenation. -/
theorem countStatus_append (s : TestStatus) (a b : List CTRFTest) :
    countStatus s (a ++ b) = countStatus s a + countStatus s b := by
  simp [countStatus, List.filter_append]

/-- The population mean is invariant under duplicating the sample. -/
theorem popMean_doubling (l : List ℚ) : popMean (l ++ l) = popMean l := by
  unfold popMean
  rw [List.sum_append, List.length_append]
  push_cast
  exact add_self_div_add_self l.sum (l.length : ℚ)

/-- The population variance is invariant under duplicating the
sample. -/
theorem popVar_doubling (l : List ℚ) : popVar (l ++ l) = popVar l := by
  unfold popVar
  rw [popMean_doubling, List.map_append, List.sum_append, List.length_append]
  push_cast
  exact add_self_div_add_self _ _

/-- Variance of a single qualifying duration is zero. -/
theorem popVar_singleton (d : ℚ) : popVar [d] = 0 := by
  simp [popVar, popMean]

/-- The coefficient of variation is invariant under duplicating the
bucket. -/
theorem durationVariance_doubling (tests : List CTRFTest) :
    calculateDurationVariance (tests ++ tests) = calculateDurationVariance tests := by
  simp only [calculateDurationVariance, durationsOf_append, popMean_doubling, popVar_doubling,
    List.length_append]
  generalize durationsOf tests = l
  cases l with
  | nil => simp
  | cons d tail =>
    cases tail with
    | nil => simp [popVar_singleton, Real.sqrt_zero]
    | cons d2 rest =>
      have h1 : ¬ ((d :: d2 :: rest).length + (d :: d2 :: rest).length < 2) := by
        simp only [List.length_cons]
        omega
      have h2 : ¬ ((d :: d2 :: rest).length < 2) := by
        simp only [List.length_cons]
        omega
      rw [if_neg h1, if_neg h2]

/-- C6: ingesting the same bucket twice doubles totalRuns, passed and
failed, and leaves failureRate, successRate and durationVariance
unchanged. -/
theorem doubling_invariance (tests : List CTRFTest) :
    (calculateStatistics (tests ++ tests)).totalRuns = 2 * (calculateStatistics tests).totalRuns ∧
    (calculateStatistics (tests ++ tests)).passed = 2 * (calculateStatistics tests).passed ∧
    (calculateStatistics (tests ++ tests)).failed = 2 * (calculateStatistics tests).failed ∧
    failureRateOf (tests ++ tests) = failureRateOf tests ∧
    successRateOf (tests ++ tests) = successRateOf tests ∧
    calculateDurationVariance (tests ++ tests) = calculateDurationVariance tests := by
  refine ⟨?_, ?_, ?_, ?_, ?_, durationVariance_doubling tests⟩
  · simp only [calculateStatistics, List.length_append]
    omega
  · simp only [calculateStatistics, countStatus_append]
    omega
  · simp only [calculateStatistics, countStatus_append]
    omega
  · simp only [failureRateOf, calculateStatistics, List.length_append, countStatus_append]
    rcases Nat.eq_zero_or_pos tests.length with hn | hn
    · simp [hn]
    · rw [if_pos (by omega : 0 < tests.length + tests.length), if_pos hn]
      push_cast
      exact add_self_div_add_self _ _
  · simp only [successRateOf, calculateStatistics, List.length_append, countStatus_append]
    rcases Nat.eq_zero_or_pos tests.length with hn | hn
    · simp [hn]
    · rw [if_pos (by omega : 0 < tests.length + tests.length), if_pos hn]
      push_cast
      exact add_self_div_add_self _ _

/-! Claims C8 and C10: grouping lemmas -/

/-- Total number of observations stored across all buckets. -/
def sumSizes (groups : List (String × List CTRFTest)) : Nat :=
  (groups.map (fun p => p.2.length)).sum

/-- Bucket keys in insertion order. -/
def keysOf (groups : List (String × List CTRFTest)) : List String :=
  groups.map Prod.fst

/-- One insertion grows the total bucket content by exactly one. -/
theorem sumSizes_addToGroup (m : List (String × List CTRFTest)) (k : String) (t : CTRFTest) :
    sumSizes (addToGroup m k t) = sumSizes m + 1 := by
  induction m with
  | nil => rfl
  | cons p rest ih =>
    obtain ⟨k', b⟩ := p
    simp only [addToGroup]
    split_ifs with h
    · simp only [sumSizes, List.map_cons, List.sum_cons, List.length_append,
        List.length_singleton]
      omega
    · simp only [sumSizes, List.map_cons, List.sum_cons] at ih ⊢
      omega

/-- One insertion either reuses an existing key or appends the new key
at the end. -/
theorem keysOf_addToGroup (m : List (String × List CTRFTest)) (k : String) (t : CTRFTest) :
    keysOf (addToGroup m k t) =
      if k ∈ keysOf m then keysOf m else keysOf m ++ [k] := by
  induction m with
  | nil => simp [addToGroup, keysOf]
  | cons p rest ih =>
    obtain ⟨k', b⟩ := p
    by_cases h : k' = k
    · subst h
      simp [addToGroup, keysOf]
    · have hk : ¬ k = k' := fun he => h he.symm
      simp only [addToGroup, if_neg h, keysOf, List.map_cons, List.mem_cons]
      simp only [keysOf] at ih
      rw [ih]
      by_cases h2 : k ∈ rest.map Prod.fst
      · rw [if_pos h2, if_pos (Or.inr h2)]
      · rw [if_neg h2, if_neg (by tauto), List.cons_append]

/-- Insertion preserves key-consistency of the buckets. -/
theorem addToGroup_consistent (k : String) (t : CTRFTest) (hk : getTestId t = k) :
    ∀ m, (∀ p ∈ m, ∀ x ∈ p.2, getTestId x = p.1) →
      ∀ p ∈ addToGroup m k t, ∀ x ∈ p.2, getTestId x = p.1 := by
  intro m
  induction m with
  | nil =>
    intro _ p hp x hx
    simp only [addToGroup, List.mem_singleton] at hp
    subst hp
    simp only [List.mem_singleton] at hx
    subst hx
    exact hk
  | cons q rest ih =>
    obtain ⟨k', b⟩ := q
    intro hm p hp x hx
    simp only [addToGroup] at hp
    split_ifs at hp with h
    · rcases List.mem_cons.mp hp with hp1 | hp2
      · subst hp1
        rcases List.mem_append.mp hx with hxb | hxt
        · exact hm (k', b) (List.mem_cons_self _ _) x hxb
        · simp only [List.mem_singleton] at hxt
          subst hxt
          rw [hk, h]
      · exact hm p (List.mem_cons_of_mem _ hp2) x hx
    · rcases List.mem_cons.mp hp with hp1 | hp2
      · subst hp1
        exact hm (k', b) (List.mem_cons_self _ _) x hx
      · exact ih (fun q hq => hm q (List.mem_cons_of_mem _ hq)) p hp2 x hx

/-- After inserting an observation there is a bucket with its key
containing it. -/
theorem addToGroup_mem_bucket (k : String) (t : CTRFTest) :
    ∀ m, ∃ p ∈ addToGroup m k t, p.1 = k ∧ t ∈ p.2 := by
  intro m
  induction m with
  | nil =>
    refine ⟨(k, [t]), ?_, rfl, ?_⟩ <;> simp [addToGroup]
  | cons q rest ih =>
    obtain ⟨k', b⟩ := q
    by_cases h : k' = k
    · refine ⟨(k', b ++ [t]), ?_, h, ?_⟩
      · simp [addToGroup, h]
      · simp
    · obtain ⟨p, hp, h1, h2⟩ := ih
      refine ⟨p, ?_, h1, h2⟩
      simp only [addToGroup, if_neg h]
      exact List.mem_cons_of_mem _ hp

/-- Insertion only grows buckets: every existing bucket maps to one with
the same key and at least the same content. -/
theorem addToGroup_preserves (k : String) (t : CTRFTest) :
    ∀ m, ∀ p ∈ m, ∃ q ∈ addToGroup m k t, q.1 = p.1 ∧ ∀ x ∈ p.2, x ∈ q.2 := by
  intro m
  induction m with
  | nil =>
    intro p hp
    simp at hp
  | cons q0 rest ih =>
    obtain ⟨k', b⟩ := q0
    intro p hp
    simp only [addToGroup]
    split_ifs with h
    · rcases List.mem_cons.mp hp with h1 | h2
      · subst h1
        exact ⟨(k', b ++ [t]), List.mem_cons_self _ _, rfl, fun x hx => List.mem_append_left _ hx⟩
      · exact ⟨p, List.mem_cons_of_mem _ h2, rfl, fun x hx => hx⟩
    · rcases List.mem_cons.mp hp with h1 | h2
      · subst h1
        exact ⟨(k', b), List.mem_cons_self _ _, rfl, fun x hx => hx⟩
      · obtain ⟨q, hq, hq1, hq2⟩ := ih p h2
        exact ⟨q, List.mem_cons_of_mem _ hq, hq1, hq2⟩

/-- Insertion preserves non-emptiness of every bucket. -/
theorem addToGroup_nonempty (k : String) (t : CTRFTest) :
    ∀ m, (∀ p ∈ m, p.2 ≠ []) → ∀ p ∈ addToGroup m k t, p.2 ≠ [] := by
  intro m
  induction m with
  | nil =>
    intro _ p hp
    simp only [addToGroup, List.mem_singleton] at hp
    subst hp
    simp
  | cons q rest ih =>
    obtain ⟨k', b⟩ := q
    intro hm p hp
    simp only [addToGroup] at hp
    split_ifs at hp with h
    · rcases List.mem_cons.mp hp with h1 | h2
      · subst h1
        simp
      · exact hm p (List.mem_cons_of_mem _ h2)
    · rcases List.mem_cons.mp hp with h1 | h2
      · subst h1
        exact hm (k', b) (List.mem_cons_self _ _)
      · exact ih (fun q hq => hm q (List.mem_cons_of_mem _ hq)) p h2

/-- Folding the grouping step adds exactly one stored observation per
input observation. -/
theorem foldl_sumSizes (ts : List CTRFTest) :
    ∀ acc, sumSizes (ts.foldl (fun m t => addToGroup m (getTestId t) t) acc) =
      sumSizes acc + ts.length := by
  induction ts with
  | nil =>
    intro acc
    simp
  | cons t rest ih =>
    intro acc
    simp only [List.foldl_cons, List.length_cons]
    rw [ih, sumSizes_addToGroup]
    omega

/-- Folding the grouping step keeps the key list duplicate-free. -/
theorem foldl_keys_nodup (ts : List CTRFTest) :
    ∀ acc, (keysOf acc).Nodup →
      (keysOf (ts.foldl (fun m t => addToGroup m (getTestId t) t) acc)).Nodup := by
  induction ts with
  | nil =>
    intro acc h
    simpa using h
  | cons t rest ih =>
    intro acc h
    simp only [List.foldl_cons]
    refine ih _ ?_
    rw [keysOf_addToGroup]
    split_ifs with hmem
    · exact h
    · rw [← List.concat_eq_append]
      exact List.Nodup.concat hmem h

/-- Folding the grouping step keeps every bucket key-consistent. -/
theorem foldl_consistent (ts : List CTRFTest) :
    ∀ acc, (∀ p ∈ acc, ∀ x ∈ p.2, getTestId x = p.1) →
      ∀ p ∈ ts.foldl (fun m t => addToGroup m (getTestId t) t) acc,
        ∀ x ∈ p.2, getTestId x = p.1 := by
  induction ts with
  | nil =>
    intro acc h
    simpa using h
  | cons t rest ih =>
    intro acc h
    simp only [List.foldl_cons]
    exact ih _ (addToGroup_consistent (getTestId t) t rfl acc h)

/-- Folding the grouping step keeps every bucket non-empty. -/
theorem foldl_nonempty (ts : List CTRFTest) :
    ∀ acc, (∀ p ∈ acc, p.2 ≠ []) →
      ∀ p ∈ ts.foldl (fun m t => addToGroup m (getTestId t) t) acc, p.2 ≠ [] := by
  induction ts with
  | nil =>
    intro acc h
    simpa using h
  | cons t rest ih =>
    intro acc h
    simp only [List.foldl_cons]
    exact ih _ (addToGroup_nonempty (getTestId t) t acc h)

/-- Buckets only grow while folding the grouping step. -/
theorem foldl_bucket_preserved (ts : List CTRFTest) :
    ∀ acc, ∀ p ∈ acc,
      ∃ q ∈ ts.foldl (fun m t => addToGroup m (getTestId t) t) acc,
        q.1 = p.1 ∧ ∀ x ∈ p.2, x ∈ q.2 := by
  induction ts with
  | nil =>
    intro acc p hp
    exact ⟨p, hp, rfl, fun x hx => hx⟩
  | cons t rest ih =>
    intro acc p hp
    simp only [List.foldl_cons]
    obtain ⟨q, hq, hq1, hq2⟩ := addToGroup_preserves (getTestId t) t acc p hp
    obtain ⟨q', hq', hq'1, hq'2⟩ := ih _ q hq
    exact ⟨q', hq', by rw [hq'1, hq1], fun x hx => hq'2 x (hq2 x hx)⟩

/-- After the fold, every input observation sits in a bucket keyed by
its identity. -/
theorem foldl_mem (ts : List CTRFTest) :
    ∀ acc, ∀ t ∈ ts,
      ∃ p ∈ ts.foldl (fun m t => addToGroup m (getTestId t) t) acc,
        p.1 = getTestId t ∧ t ∈ p.2 := by
  induction ts with
  | nil =>
    intro acc t ht
    simp at ht
  | cons t0 rest ih =>
    intro acc t ht
    simp only [List.foldl_cons]
    rcases List.mem_cons.mp ht with h1 | h2
    · subst h1
      obtain ⟨p, hp, hp1, hp2⟩ := addToGroup_mem_bucket (getTestId t) t acc
      obtain ⟨q, hq, hq1, hq2⟩ := foldl_bucket_preserved rest _ p hp
      exact ⟨q, hq, by rw [hq1, hp1], hq2 t hp2⟩
    · exact ih _ t h2

/-- C8: grouping is a partition — every bucket holds only observations
with its key, keys are unique, every input observation lands in a bucket
keyed by its computed identity, and the bucket sizes sum to the input
length. -/
theorem grouping_partition (tests : List CTRFTest) :
    (∀ p ∈ groupTestsByIdentifier tests, ∀ x ∈ p.2, getTestId x = p.1) ∧
    (keysOf (groupTestsByIdentifier tests)).Nodup ∧
    (∀ t ∈ tests, ∃ p ∈ groupTestsByIdentifier tests, p.1 = getTestId t ∧ t ∈ p.2) ∧
    sumSizes (groupTestsByIdentifier tests) = tests.length := by
  refine ⟨?_, ?_, ?_, ?_⟩
  · exact foldl_consistent tests [] (by simp)
  · exact foldl_keys_nodup tests [] (by simp [keysOf])
  · intro t ht
    exact foldl_mem tests [] t ht
  · rw [groupTestsByIdentifier, foldl_sumSizes]
    simp [sumSizes]

/-- Concrete input list for the C8 witness: two observations of one
test and one of another. -/
def wGroupList : List CTRFTest :=
  [{ name := "a", status := TestStatus.passed, duration := 1 },
   { name := "b", status := TestStatus.failed, duration := 2 },
   { name := "a", status := TestStatus.failed, duration := 3 }]

/-- Witness for the C8 theorem at a concrete three-observation input. -/
theorem grouping_partition_witness :
    (∀ p ∈ groupTestsByIdentifier wGroupList, ∀ x ∈ p.2, getTestId x = p.1) ∧
    (keysOf (groupTestsByIdentifier wGroupList)).Nodup ∧
    (∀ t ∈ wGroupList, ∃ p ∈ groupTestsByIdentifier wGroupList, p.1 = getTestId t ∧ t ∈ p.2) ∧
    sumSizes (groupTestsByIdentifier wGroupList) = wGroupList.length :=
  grouping_partition wGroupList

/-! Claim C10 -/

/-- C10: every bucket produced by grouping is non-empty, so the first
observation used for the display fields exists, calculateTestStatistics
is defined on it, and the totalRuns = 0 fallback of the rate computation
is not taken. -/
theorem grouped_buckets_defined (cfg : FlakyDetectionConfig) (tests : List CTRFTest)
    (k : String) (b : List CTRFTest) (hmem : (k, b) ∈ groupTestsByIdentifier tests) :
    b ≠ [] ∧
    (∃ first rest, b = first :: rest) ∧
    (calculateTestStatistics cfg k b).isSome = true ∧
    0 < (calculateStatistics b).totalRuns ∧
    failureRateOf b =
      ((calculateStatistics b).failed : ℚ) / ((calculateStatistics b).totalRuns : ℚ) := by
  have hne : b ≠ [] := foldl_nonempty tests [] (by simp) (k, b) hmem
  obtain ⟨first, rest, hb⟩ : ∃ first rest, b = first :: rest := by
    cases b with
    | nil => exact absurd rfl hne
    | cons x xs => exact ⟨x, xs, rfl⟩
  have hlen : 0 < b.length := by
    rw [hb]
    simp
  refine ⟨hne, ⟨first, rest, hb⟩, ?_, ?_, ?_⟩
  · rw [hb]
    simp [calculateTestStatistics]
  · simpa only [calculateStatistics] using hlen
  · simp only [failureRateOf, calculateStatistics]
    rw [if_pos hlen]

/-- Concrete observation for the C10 witness. -/
def wSingleObs : CTRFTest := { name := "w", status := TestStatus.failed, duration := 3 }

/-- Witness for the C10 theorem: the singleton bucket of a single
grouped observation. -/
theorem grouped_buckets_defined_witness :
    ("unknown::default::w", [wSingleObs]) ∈ groupTestsByIdentifier [wSingleObs] ∧
    ([wSingleObs] ≠ [] ∧
      (∃ first rest, [wSingleObs] = first :: rest) ∧
      (calculateTestStatistics defaultConfig "unknown::default::w" [wSingleObs]).isSome = true ∧
      0 < (calculateStatistics [wSingleObs]).totalRuns ∧
      failureRateOf [wSingleObs] =
        ((calculateStatistics [wSingleObs]).failed : ℚ) /
          ((calculateStatistics [wSingleObs]).totalRuns : ℚ)) :=
  ⟨by decide,
    grouped_buckets_defined defaultConfig [wSingleObs] "unknown::default::w" [wSingleObs]
      (by decide)⟩
